import Mathlib

/-!
Shallow embedding of `crates/arroyo-formats/src/avro/reader.rs` (the Avro →
Arrow columnar decoder of the arroyo fork under verification).

Modelling conventions:
* `apache_avro::types::Value` is embedded as `AvroValue`.  The `Float`,
  `Double`, `Decimal`, `BigDecimal`, `Uuid` and `Map` variants are omitted:
  floating point is not shallowly embeddable and none of the verified claims
  exercises those variants (every code path treats them through catch-all
  arms, which the embedding keeps).
* Machine integers are embedded as `Int`/`Nat` with explicit range checks
  where the Rust code performs checked numeric casts, and explicit wrap-around
  where it performs an `as` cast.
* Fallible Rust code (`ArrowResult`, `AvroResult`, `Option`) is embedded with
  `Except`/`Option`.  Rust `panic!` / `unimplemented!` / `unreachable!` — an
  unrecoverable process abort, not a catchable error — is embedded with the
  dedicated `Outcome.abort` constructor so that theorems can distinguish the
  two failure modes.
* Error payloads: the Rust errors carry formatted debug strings; the embedding
  keeps a fixed message per error site (formatting of the offending value is
  not reproduced).
-/

/-- Model of `arrow::error::ArrowError` restricted to the constructors this
file produces (`SchemaError`, invalid-argument errors from array/batch
validation, and the dictionary key overflow raised by
`StringDictionaryBuilder::append`). -/
inductive ArrowErr where
  | schemaError (msg : String)
  | invalidArgument (msg : String)
  | dictionaryKeyOverflow
  deriving Repr, DecidableEq

/-- Result of running a piece of the decoder: a value, a catchable error
value (`Err`/`ArrowError`), or an unrecoverable process abort
(Rust `panic!`/`unimplemented!`/`unreachable!`). -/
inductive Outcome (α : Type) where
  | ok (a : α)
  | err (e : ArrowErr)
  | abort (msg : String)
  deriving Repr, DecidableEq

/-- Model of `apache_avro::types::Value` (see module header for the omitted
floating-point variants).  Byte payloads are lists of byte values (`Nat`). -/
inductive AvroValue where
  | null
  | boolean (b : Bool)
  | int (n : Int)
  | long (n : Int)
  | bytes (bs : List Nat)
  | string (s : String)
  | fixed (n : Nat) (bs : List Nat)
  | enum (pos : Nat) (sym : String)
  | union (pos : Nat) (v : AvroValue)
  | array (items : List AvroValue)
  | record (fields : List (String × AvroValue))
  | date (n : Int)
  | timeMillis (n : Int)
  | timeMicros (n : Int)
  | timestampMillis (n : Int)
  | timestampMicros (n : Int)
  | duration
  deriving Repr

/-- A deserialized Avro record body: `Vec<(String, Value)>` in the source. -/
abbrev Row := List (String × AvroValue)

/-- `maybe_resolve_union` (reader.rs:911): unwrap exactly one level of union
tagging, keeping the carried branch value. -/
def maybe_resolve_union : AvroValue → AvroValue
  | .union _ b => b
  | v => v

/-- `resolve_boolean` (reader.rs:891). -/
def resolve_boolean (value : AvroValue) : Option Bool :=
  match maybe_resolve_union value with
  | .boolean b => some b
  | _ => none

/-- UTF-8 encoding of a Rust `String` (`String::into_bytes`), as byte values. -/
def stringToBytes (s : String) : List Nat :=
  (s.data.flatMap String.utf8EncodeChar).map UInt8.toNat

/-- UTF-8 decoding used by `String::from_utf8` in `resolve_string`.  Only the
success/failure split matters to the claims; decoding goes through the
standard library. -/
def bytesToString (bs : List Nat) : Option String :=
  String.fromUTF8? (ByteArray.mk (Array.mk (bs.map (fun n => UInt8.ofNat n))))

/-- `resolve_string` (reader.rs:827): unwraps one union level; strings,
UTF-8-decodable byte sequences and enum symbols succeed; null is absent;
anything else is a (catchable) `GetString` error mapped to `SchemaError`. -/
def resolve_string (v : AvroValue) : Except ArrowErr (Option String) :=
  match (match v with | .union _ b => b | v' => v') with
  | .string s => .ok (some s)
  | .bytes bs =>
      match bytesToString bs with
      | some s => .ok (some s)
      | none => .error (.schemaError "expected resolvable string : ConvertToUtf8")
  | .enum _ s => .ok (some s)
  | .null => .ok none
  | _ => .error (.schemaError "expected resolvable string : GetString")

/-- Model of `apache_avro::Error` as far as `resolve_u8` needs it. -/
inductive AvroErr where
  | getU8
  deriving Repr, DecidableEq

/-- Wrap-around conversion of an `i64` value to `i32` (Rust `n as i32`). -/
def toI32 (n : Int) : Int := (n + 2 ^ 31).emod (2 ^ 32) - 2 ^ 31

/-- `resolve_u8` (reader.rs:841): an `Int` in `0..=255` is a byte; a `Long` is
first wrapped to `i32` (`n as i32`) and then range-checked; everything else is
a `GetU8` error. -/
def resolve_u8 (v : AvroValue) : Except AvroErr Nat :=
  match (match v with
         | .int n => Except.ok n
         | .long n => Except.ok (toI32 n)
         | _ => Except.error AvroErr.getU8) with
  | .ok n => if 0 ≤ n ∧ n ≤ 255 then .ok n.toNat else .error .getU8
  | .error e => .error e

/-- Short-circuiting traversal in `Except`, the embedding of
`Iterator::collect::<Result<Vec<_>, _>>()`. -/
def emapM {ε α β : Type} (f : α → Except ε β) : List α → Except ε (List β)
  | [] => .ok []
  | a :: as =>
      match f a with
      | .ok b =>
          match emapM f as with
          | .ok bs => .ok (b :: bs)
          | .error e => .error e
      | .error e => .error e

/-- `resolve_bytes` (reader.rs:856): unwraps one union level; byte sequences
pass through, strings re-encode as UTF-8, arrays map each element through
`resolve_u8` — any element failure makes the whole value absent (`.ok()?`
turns the collected `Result` into `None`); all other kinds are absent. -/
def resolve_bytes (v : AvroValue) : Option (List Nat) :=
  match (match v with | .union _ b => b | v' => v') with
  | .bytes bs => some bs
  | .string s => some (stringToBytes s)
  | .array items =>
      match emapM resolve_u8 items with
      | .ok bs => some bs
      | .error _ => none
  | _ => none

/-- `resolve_fixed` (reader.rs:877): only a `Fixed` value whose declared size
matches exactly resolves; everything else (size mismatch included) is absent. -/
def resolve_fixed (v : AvroValue) (size : Nat) : Option (List Nat) :=
  match (match v with | .union _ b => b | v' => v') with
  | .fixed n bs => if n = size then some bs else none
  | _ => none

example : resolve_bytes (.array [.int 104, .int 105]) = some [104, 105] := rfl
example : resolve_bytes (.array [.int 300]) = none := rfl
example : resolve_boolean (.union 1 (.boolean true)) = some true := rfl

/-- Short-circuiting traversal in `Outcome` (collecting results where a Rust
panic can escape the iteration). -/
def omapM {α β : Type} (f : α → Outcome β) : List α → Outcome (List β)
  | [] => .ok []
  | a :: as =>
      match f a with
      | .ok b =>
          match omapM f as with
          | .ok bs => .ok (b :: bs)
          | .err e => .err e
          | .abort m => .abort m
      | .err e => .err e
      | .abort m => .abort m

/-- The Arrow primitive types the decoder instantiates `build_primitive_array`
and the dictionary builders with. -/
inductive ArrowPrim where
  | int8 | int16 | int32 | int64
  | uint8 | uint16 | uint32 | uint64
  | float32 | float64
  | timestampSecond | timestampMillisecond | timestampMicrosecond | timestampNanosecond
  | date32 | date64
  | time32Second | time32Millisecond | time64Microsecond | time64Nanosecond
  deriving Repr, DecidableEq

/-- The native integer range of each Arrow primitive; `none` for the floating
point targets, whose `NumCast` conversion from any source integer succeeds
(the lossy rounding itself is not modelled — no claim inspects a float). -/
def primNativeRange : ArrowPrim → Option (Int × Int)
  | .int8 => some (-(2 ^ 7), 2 ^ 7 - 1)
  | .int16 => some (-(2 ^ 15), 2 ^ 15 - 1)
  | .int32 => some (-(2 ^ 31), 2 ^ 31 - 1)
  | .int64 => some (-(2 ^ 63), 2 ^ 63 - 1)
  | .uint8 => some (0, 2 ^ 8 - 1)
  | .uint16 => some (0, 2 ^ 16 - 1)
  | .uint32 => some (0, 2 ^ 32 - 1)
  | .uint64 => some (0, 2 ^ 64 - 1)
  | .float32 => none
  | .float64 => none
  | .timestampSecond => some (-(2 ^ 63), 2 ^ 63 - 1)
  | .timestampMillisecond => some (-(2 ^ 63), 2 ^ 63 - 1)
  | .timestampMicrosecond => some (-(2 ^ 63), 2 ^ 63 - 1)
  | .timestampNanosecond => some (-(2 ^ 63), 2 ^ 63 - 1)
  | .date32 => some (-(2 ^ 31), 2 ^ 31 - 1)
  | .date64 => some (-(2 ^ 63), 2 ^ 63 - 1)
  | .time32Second => some (-(2 ^ 31), 2 ^ 31 - 1)
  | .time32Millisecond => some (-(2 ^ 31), 2 ^ 31 - 1)
  | .time64Microsecond => some (-(2 ^ 63), 2 ^ 63 - 1)
  | .time64Nanosecond => some (-(2 ^ 63), 2 ^ 63 - 1)

/-- `num_traits::NumCast::from` for an integer source: checked conversion into
the target's native range (`none` on overflow). -/
def numCast (t : ArrowPrim) (n : Int) : Option Int :=
  match primNativeRange t with
  | none => some n
  | some (lo, hi) => if lo ≤ n ∧ n ≤ hi then some n else none

/-- The blanket `Resolver` impl (reader.rs:923): unwraps one union level, casts
the integer payload of int/long/temporal variants, returns absent on null or
cast overflow, and *aborts* on `Duration` (`unimplemented!`) or any other
variant (`unreachable!`). -/
def resolve_item (t : ArrowPrim) (value : AvroValue) : Outcome (Option Int) :=
  match maybe_resolve_union value with
  | .int i => .ok (numCast t i)
  | .timeMillis i => .ok (numCast t i)
  | .date i => .ok (numCast t i)
  | .long l => .ok (numCast t l)
  | .timeMicros l => .ok (numCast t l)
  | .timestampMillis l => .ok (numCast t l)
  | .timestampMicros l => .ok (numCast t l)
  | .duration => .abort "unimplemented: Duration"
  | .null => .ok none
  | _ => .abort "unreachable: Resolver"

/-- `arrow::datatypes::TimeUnit`. -/
inductive TimeUnit where
  | second | millisecond | microsecond | nanosecond
  deriving Repr, DecidableEq

mutual
/-- `arrow::datatypes::DataType`, restricted to the variants the decoder
dispatches on; every variant the source routes to a catch-all "not supported"
arm is collapsed into `other`.  Struct fields are a dedicated list type
(`StructFields`) so that the mutually recursive builders are structurally
recursive.  `Field` metadata other than name and data type (nullability) is
never consulted by the decoder and is not modelled. -/
inductive DataType where
  | null | boolean
  | int8 | int16 | int32 | int64
  | uint8 | uint16 | uint32 | uint64
  | float16 | float32 | float64
  | timestamp (unit : TimeUnit)
  | date32 | date64
  | time32 (unit : TimeUnit) | time64 (unit : TimeUnit)
  | utf8 | largeUtf8 | binary | largeBinary
  | fixedSizeBinary (size : Int)
  | list (fieldName : String) (elem : DataType)
  | largeList (fieldName : String) (elem : DataType)
  | dictionary (keyType : DataType) (valueType : DataType)
  | structT (fields : StructFields)
  | other (desc : String)
  deriving Repr

/-- An ordered field list `(name, data type)` of a struct / record batch
schema (`arrow::datatypes::Fields`). -/
inductive StructFields where
  | nil
  | cons (name : String) (dataType : DataType) (rest : StructFields)
  deriving Repr
end

/-- Number of fields. -/
def StructFields.length : StructFields → Nat
  | .nil => 0
  | .cons _ _ rest => 1 + rest.length

/-- Data type of the `i`-th field, with a default. -/
def StructFields.typeAtD : StructFields → Nat → DataType → DataType
  | .nil, _, d => d
  | .cons _ dt _, 0, _ => dt
  | .cons _ _ rest, i + 1, d => rest.typeAtD i d

/-- Is this a list whose element type is dictionary-encoded (the shape routed
to `build_wrapped_list_array`)? -/
def isDictList : DataType → Bool
  | .list _ (.dictionary _ _) => true
  | _ => false

/-- The columnar arrays the builders produce, with explicit value lists,
validity information, and (for lists) offset buffers. -/
inductive Col where
  | nullArr (len : Nat)
  | booleanArr (values : List (Option Bool))
  | primitive (t : ArrowPrim) (values : List (Option Int))
  | stringArr (values : List (Option String))
  | binaryArr (values : List (Option (List Nat)))
  | fixedSizeBinaryArr (size : Int) (values : List (Option (List Nat)))
  | dict (keyType : ArrowPrim) (keys : List (Option Nat)) (dictValues : List String)
  | list (len : Nat) (offsets : List Nat) (validity : List Bool) (child : Col)
  | structArr (len : Nat) (validity : List Bool) (children : List Col)
  deriving Repr

/-- Row count of a column (`Array::len`). -/
def Col.length : Col → Nat
  | .nullArr n => n
  | .booleanArr vs => vs.length
  | .primitive _ vs => vs.length
  | .stringArr vs => vs.length
  | .binaryArr vs => vs.length
  | .fixedSizeBinaryArr _ vs => vs.length
  | .dict _ ks _ => ks.length
  | .list n _ _ _ => n
  | .structArr n _ _ => n

/-- Offset buffer of a list column (empty for non-list columns). -/
def Col.offsetsOf : Col → List Nat
  | .list _ os _ _ => os
  | _ => []

/-- Validity bitmap of a list column (empty for non-list columns). -/
def Col.bitsOf : Col → List Bool
  | .list _ _ bs _ => bs
  | _ => []

/-- `AvroDecoder::field_lookup` (reader.rs:768). In the source this method is
STUBBED: it ignores its arguments and unconditionally returns `None` (the
original index-based lookup is commented out behind a TODO), so every per-row
field lookup misses. -/
def field_lookup (_name : String) (_row : Row) : Option AvroValue :=
  none

/-- `build_boolean_array` (reader.rs:152): per row, look the field up and
resolve a boolean; a miss or unresolvable value appends null. -/
def build_boolean_array (rows : List Row) (col_name : String) : Col :=
  .booleanArr (rows.map fun row =>
    match field_lookup col_name row with
    | some value => resolve_boolean value
    | none => none)

/-- `build_primitive_array` (reader.rs:168): per row,
`field_lookup(..).and_then(resolve_item)`; a resolver abort escapes. -/
def build_primitive_array (t : ArrowPrim) (rows : List Row) (col_name : String) :
    Outcome Col :=
  match omapM (fun row =>
      match field_lookup col_name row with
      | none => Outcome.ok none
      | some value => resolve_item t value) rows with
  | .ok vals => .ok (.primitive t vals)
  | .err e => .err e
  | .abort m => .abort m

/-- The Utf8/LargeUtf8 arm of `build_struct_array` (reader.rs:643): per row a
lookup miss is null, otherwise `resolve_string`; a string-resolution error
aborts the column (collected through `ArrowResult`). -/
def build_string_column (rows : List Row) (col_name : String) :
    Except ArrowErr Col :=
  match emapM (fun row =>
      match field_lookup col_name row with
      | none => Except.ok none
      | some v => resolve_string v) rows with
  | .ok vals => .ok (.stringArr vals)
  | .error e => .error e

/-- The Binary/LargeBinary arm of `build_struct_array` (reader.rs:654):
`field_lookup(..).and_then(resolve_bytes)` per row, never failing. -/
def build_binary_column (rows : List Row) (col_name : String) : Col :=
  .binaryArr (rows.map fun row => (field_lookup col_name row).bind resolve_bytes)

/-- The FixedSizeBinary arm (reader.rs:662):
`FixedSizeBinaryArray::try_from_sparse_iter_with_size` errors (caught by `?`)
when a present byte value does not have exactly `size` bytes. -/
def build_fixed_column (rows : List Row) (col_name : String) (size : Int) :
    Except ArrowErr Col :=
  let vals := rows.map fun row =>
    (field_lookup col_name row).bind (fun v => resolve_fixed v size.toNat)
  if vals.all (fun v => match v with
      | some bs => bs.length = size.toNat
      | none => true)
  then .ok (.fixedSizeBinaryArr size vals)
  else .error (.invalidArgument "byte slice does not match FixedSizeBinary size")

/-- Number of keys a dictionary key type can address (a new distinct value is
assigned key `values.length`; `StringDictionaryBuilder::append` fails with
`DictionaryKeyOverflow` when that index is not representable in the key
type). -/
def dictKeyCapacity : ArrowPrim → Nat
  | .int8 => 2 ^ 7
  | .int16 => 2 ^ 15
  | .int32 => 2 ^ 31
  | .int64 => 2 ^ 63
  | .uint8 => 2 ^ 8
  | .uint16 => 2 ^ 16
  | .uint32 => 2 ^ 32
  | .uint64 => 2 ^ 64
  | _ => 0

/-- `StringDictionaryBuilder::append`: reuse the key of an already-interned
string, or intern it under the next key — erroring with
`DictionaryKeyOverflow` when the next key exceeds the key type's capacity. -/
def dictAppend (cap : Nat) (values : List String) (s : String) :
    Except ArrowErr (List String × Nat) :=
  match values.findIdx? (fun v => v = s) with
  | some i => .ok (values, i)
  | none =>
      if values.length < cap then .ok (values ++ [s], values.length)
      else .error .dictionaryKeyOverflow

/-- The row loop of `build_dictionary_array` (reader.rs:348): a lookup miss or
an unresolvable/absent string appends a null key; a resolved string is
interned (`builder.append(str_v)?` propagates the overflow error). -/
def dictLoop (cap : Nat) (col_name : String) (rows : List Row)
    (values : List String) (keys : List (Option Nat)) :
    Except ArrowErr (List String × List (Option Nat)) :=
  match rows with
  | [] => .ok (values, keys)
  | row :: rest =>
      match field_lookup col_name row with
      | some v =>
          match resolve_string v with
          | .ok (some s) =>
              match dictAppend cap values s with
              | .ok (values', k) => dictLoop cap col_name rest values' (keys ++ [some k])
              | .error e => .error e
          | _ => dictLoop cap col_name rest values (keys ++ [none])
      | none => dictLoop cap col_name rest values (keys ++ [none])

/-- `build_dictionary_array` (reader.rs:341). -/
def build_dictionary_array (keyT : ArrowPrim) (rows : List Row) (col_name : String) :
    Except ArrowErr Col :=
  match dictLoop (dictKeyCapacity keyT) col_name rows [] [] with
  | .ok (values, keys) => .ok (.dict keyT keys values)
  | .error e => .error e

/-- `build_string_dictionary_array` (reader.rs:363): only `Utf8` values and the
eight integer key widths are supported. -/
def build_string_dictionary_array (rows : List Row) (col_name : String)
    (key_type value_type : DataType) : Except ArrowErr Col :=
  match value_type with
  | .utf8 =>
      match key_type with
      | .int8 => build_dictionary_array .int8 rows col_name
      | .int16 => build_dictionary_array .int16 rows col_name
      | .int32 => build_dictionary_array .int32 rows col_name
      | .int64 => build_dictionary_array .int64 rows col_name
      | .uint8 => build_dictionary_array .uint8 rows col_name
      | .uint16 => build_dictionary_array .uint16 rows col_name
      | .uint32 => build_dictionary_array .uint32 rows col_name
      | .uint64 => build_dictionary_array .uint64 rows col_name
      | _ => .error (.schemaError "unsupported dictionary key type")
  | _ => .error (.schemaError "dictionary types other than UTF-8 not yet supported")

/-- The per-row value extraction of `list_array_string_array_builder`
(reader.rs:272): a string is a one-element list, an array maps every element
through `resolve_string` (errors propagate), null is a one-element null list,
a record is an error, and any other scalar resolves as a one-element list. -/
def wrappedRowVals (value : AvroValue) : Except ArrowErr (List (Option String)) :=
  match maybe_resolve_union value with
  | .string v => .ok [some v]
  | .array n => emapM resolve_string n
  | .null => .ok [none]
  | .record _ => .error (.schemaError "Only scalars are currently supported in Avro arrays")
  | v' =>
      match resolve_string v' with
      | .ok r => .ok [r]
      | .error e => .error e

/-- Appending one row's resolved values into the dictionary values-builder of
`list_array_string_array_builder` (reader.rs:317): each string is interned
(`append(..)?` can overflow), each null appends a null key. -/
def dictValsAppend (cap : Nat) (values : List String) (keys : List (Option Nat)) :
    List (Option String) → Except ArrowErr (List String × List (Option Nat))
  | [] => .ok (values, keys)
  | some s :: rest =>
      match dictAppend cap values s with
      | .ok (values', k) => dictValsAppend cap values' (keys ++ [some k]) rest
      | .error e => .error e
  | none :: rest => dictValsAppend cap values (keys ++ [none]) rest

/-- The row loop of `list_array_string_array_builder` (reader.rs:270): NOTE
that a row whose field lookup misses appends NOTHING to the list builder (the
`if let Some(value) = self.field_lookup(..)` has no else branch), so the
resulting list column has one entry per *successful* lookup, not per row. -/
def wrappedListLoop (cap : Nat) (col_name : String) (rows : List Row)
    (values : List String) (keys : List (Option Nat))
    (offsets : List Nat) (bits : List Bool) (cur : Nat) :
    Except ArrowErr (List String × List (Option Nat) × List Nat × List Bool) :=
  match rows with
  | [] => .ok (values, keys, offsets, bits)
  | row :: rest =>
      match field_lookup col_name row with
      | some value =>
          match wrappedRowVals value with
          | .ok vals =>
              match dictValsAppend cap values keys vals with
              | .ok (values', keys') =>
                  wrappedListLoop cap col_name rest values' keys'
                    (offsets ++ [cur + vals.length]) (bits ++ [true])
                    (cur + vals.length)
              | .error e => .error e
          | .error e => .error e
      | none => wrappedListLoop cap col_name rest values keys offsets bits cur

/-- `list_array_string_array_builder` instantiated at a dictionary element
type (the only instantiation `build_wrapped_list_array` produces). -/
def list_array_string_array_builder (keyT : ArrowPrim) (col_name : String)
    (rows : List Row) : Except ArrowErr Col :=
  match wrappedListLoop (dictKeyCapacity keyT) col_name rows [] [] [0] [] 0 with
  | .ok (values, keys, offsets, bits) =>
      .ok (.list bits.length offsets bits (.dict keyT keys values))
  | .error e => .error e

/-- `build_wrapped_list_array` (reader.rs:191): dispatch on the dictionary key
width. -/
def build_wrapped_list_array (rows : List Row) (col_name : String)
    (key_type : DataType) : Except ArrowErr Col :=
  match key_type with
  | .int8 => list_array_string_array_builder .int8 col_name rows
  | .int16 => list_array_string_array_builder .int16 col_name rows
  | .int32 => list_array_string_array_builder .int32 col_name rows
  | .int64 => list_array_string_array_builder .int64 col_name rows
  | .uint8 => list_array_string_array_builder .uint8 col_name rows
  | .uint16 => list_array_string_array_builder .uint16 col_name rows
  | .uint32 => list_array_string_array_builder .uint32 col_name rows
  | .uint64 => list_array_string_array_builder .uint64 col_name rows
  | _ => .error (.schemaError "Data type is currently not supported for dictionaries in list")

/-- Offset contribution of one list row (reader.rs:405-416): after unwrapping
one union level, an array contributes its length, null contributes zero, and
any other scalar contributes one. -/
def listRowContrib (v : AvroValue) : Nat :=
  match maybe_resolve_union v with
  | .array a => a.length
  | .null => 0
  | _ => 1

/-- Validity bit of one list row (reader.rs:405-416): the bit is set ONLY in
the array branch; both the null branch and the scalar branch leave it
unset. -/
def listRowBit (v : AvroValue) : Bool :=
  match maybe_resolve_union v with
  | .array _ => true
  | _ => false

/-- The offset/validity loop of `build_nested_list_array` (reader.rs:398-417),
threading the running offset `cur`; returns the offsets pushed after the
initial `0` together with the validity bits. -/
def listOffsetsLoop (rows : List AvroValue) (cur : Nat) : List Nat × List Bool :=
  match rows with
  | [] => ([], [])
  | v :: rest =>
      let c := cur + listRowContrib v
      let r := listOffsetsLoop rest c
      (c :: r.1, listRowBit v :: r.2)

/-- The full offset buffer (`row count + 1` entries, starting at 0). -/
def nestedOffsets (rows : List AvroValue) : List Nat :=
  0 :: (listOffsetsLoop rows 0).1

/-- The outer validity bitmap of the nested list builder. -/
def nestedBits (rows : List AvroValue) : List Bool :=
  (listOffsetsLoop rows 0).2

/-- The final running offset (`cur_offset.to_usize()`, reader.rs:418). -/
def nestedValidLen (rows : List AvroValue) : Nat :=
  (nestedOffsets rows).getLastD 0

/-- `flatten_values` (reader.rs:786): one union unwrap per row; arrays are
spliced, any other value is kept as a one-element list. -/
def flatten_values (values : List AvroValue) : List AvroValue :=
  values.flatMap fun row =>
    match maybe_resolve_union row with
    | .array vs => vs
    | v => [v]

/-- `flatten_string_values` (reader.rs:805): flattens arrays, drops null rows,
and resolves everything through `resolve_string`, demoting resolution errors
to null (`.ok().flatten()`). -/
def flatten_string_values (values : List AvroValue) : List (Option String) :=
  values.flatMap fun row =>
    match maybe_resolve_union row with
    | .array vs => vs.map (fun s => ((resolve_string s).toOption).join)
    | .null => []
    | v => [((resolve_string v).toOption).join]

/-- The boolean element builder of `build_nested_list_array`
(reader.rs:421-448): only array rows write element slots (no union unwrap
here); a non-boolean element is a null slot; slots never written stay at the
buffer defaults (valid, `false`).  `valid_len` sizes the element array. -/
def buildNestedBool (rows : List AvroValue) (valid_len : Nat) : Col :=
  let written := rows.foldl (fun acc v =>
    match v with
    | .array vs => acc ++ vs.map (fun value =>
        match value with
        | .boolean b => some b
        | _ => none)
    | _ => acc) []
  .booleanArr (written ++ List.replicate (valid_len - written.length) (some false))

/-- The final list assembly of `build_nested_list_array` (reader.rs:552-560):
wrap the element data with the offset buffer and outer validity bitmap into a
list column of length `rows.length`, passing element-building failures
through. -/
def assembleList (rows : List AvroValue) (child : Outcome Col) : Outcome Col :=
  match child with
  | .ok c => .ok (.list rows.length (nestedOffsets rows) (nestedBits rows) c)
  | .err e => .err e
  | .abort m => .abort m

/-- `read_primitive_list_values` (reader.rs:743): per row (one union unwrap),
arrays map every element through `resolve_item` (aborts escape); a scalar row
becomes a one-element list if it resolves, and is dropped otherwise. -/
def readPrimitiveListValues (t : ArrowPrim) (rows : List AvroValue) : Outcome Col :=
  match omapM (fun row =>
      match maybe_resolve_union row with
      | .array values => omapM (resolve_item t) values
      | row' =>
          match resolve_item t row' with
          | .ok (some f) => Outcome.ok [some f]
          | .ok none => Outcome.ok []
          | .err e => .err e
          | .abort m => .abort m) rows with
  | .ok vss => .ok (.primitive t vss.flatten)
  | .err e => .err e
  | .abort m => .abort m

/-- The empty placeholder record fed into struct recursion for an absent/null
struct row (`empty_vec`, reader.rs:700). -/
def empty_vec : Row := []

/-- The placeholder record used for null rows inside the struct element branch
of `build_nested_list_array` (`null_struct_array`, reader.rs:507). -/
def null_struct_array : Row := [("null", AvroValue.null)]

/-- The per-row sub-record extraction of the Struct arm of
`build_struct_array` (reader.rs:701-718): a present record sets the row's
validity bit; a miss or explicit null feeds the empty placeholder; any other
present value PANICS (`expected struct got ..`). -/
def structRowsOf (field_path : String) (rows : List Row) :
    Outcome (List (Row × Bool)) :=
  omapM (fun row =>
    match (field_lookup field_path row).map maybe_resolve_union with
    | some (.record value) => .ok (value, true)
    | none => .ok (empty_vec, false)
    | some .null => .ok (empty_vec, false)
    | some _ => .abort "expected struct") rows

/-- The flattening of the Struct element branch of `build_nested_list_array`
(reader.rs:508-534): array rows are spliced element-wise (one union unwrap per
element; records are valid slots, nulls are placeholder slots, anything else
PANICS `expected Record`); a non-array row contributes one placeholder
slot. -/
def structElemSlots (rows : List AvroValue) : Outcome (List (Row × Bool)) :=
  match omapM (fun v =>
      match maybe_resolve_union v with
      | .array values =>
          omapM (fun e =>
            match maybe_resolve_union e with
            | .record r => Outcome.ok (r, true)
            | .null => .ok (null_struct_array, false)
            | _ => .abort "expected Record") values
      | _ => Outcome.ok [(null_struct_array, false)]) rows with
  | .ok slotss => .ok slotss.flatten
  | .err e => .err e
  | .abort m => .abort m

mutual
/-- `build_struct_array` (reader.rs:571): one column per target field, in
schema order, short-circuiting on the first failure; the per-field path is
`parent.name` (or just `name` at the top level). -/
def build_struct_array (rows : List Row) (parent_field_name : String)
    (struct_fields : StructFields) : Outcome (List Col) :=
  match struct_fields with
  | .nil => .ok []
  | .cons name dt rest =>
      let field_path :=
        if parent_field_name = "" then name else parent_field_name ++ "." ++ name
      match build_field rows field_path dt with
      | .ok c =>
          match build_struct_array rows parent_field_name rest with
          | .ok cs => .ok (c :: cs)
          | .err e => .err e
          | .abort m => .abort m
      | .err e => .err e
      | .abort m => .abort m

/-- The per-field dispatch of `build_struct_array` (reader.rs:585-735),
extracted as a function of the field's declared data type. -/
def build_field (rows : List Row) (field_path : String) (dt : DataType) :
    Outcome Col :=
  match dt with
  | .null => .ok (.nullArr rows.length)
  | .boolean => .ok (build_boolean_array rows field_path)
  | .float64 => build_primitive_array .float64 rows field_path
  | .float32 => build_primitive_array .float32 rows field_path
  | .int64 => build_primitive_array .int64 rows field_path
  | .int32 => build_primitive_array .int32 rows field_path
  | .int16 => build_primitive_array .int16 rows field_path
  | .int8 => build_primitive_array .int8 rows field_path
  | .uint64 => build_primitive_array .uint64 rows field_path
  | .uint32 => build_primitive_array .uint32 rows field_path
  | .uint16 => build_primitive_array .uint16 rows field_path
  | .uint8 => build_primitive_array .uint8 rows field_path
  | .timestamp u =>
      match u with
      | .second => build_primitive_array .timestampSecond rows field_path
      | .microsecond => build_primitive_array .timestampMicrosecond rows field_path
      | .millisecond => build_primitive_array .timestampMillisecond rows field_path
      | .nanosecond => build_primitive_array .timestampNanosecond rows field_path
  | .date64 => build_primitive_array .date64 rows field_path
  | .date32 => build_primitive_array .date32 rows field_path
  | .time64 u =>
      match u with
      | .microsecond => build_primitive_array .time64Microsecond rows field_path
      | .nanosecond => build_primitive_array .time64Nanosecond rows field_path
      | _ => .err (.schemaError "TimeUnit not supported with Time64")
  | .time32 u =>
      match u with
      | .second => build_primitive_array .time32Second rows field_path
      | .millisecond => build_primitive_array .time32Millisecond rows field_path
      | _ => .err (.schemaError "TimeUnit not supported with Time32")
  | .utf8 =>
      match build_string_column rows field_path with
      | .ok c => .ok c
      | .error e => .err e
  | .largeUtf8 =>
      match build_string_column rows field_path with
      | .ok c => .ok c
      | .error e => .err e
  | .binary => .ok (build_binary_column rows field_path)
  | .largeBinary => .ok (build_binary_column rows field_path)
  | .fixedSizeBinary size =>
      match build_fixed_column rows field_path size with
      | .ok c => .ok c
      | .error e => .err e
  | .list fieldName elemT =>
      match elemT with
      | .dictionary keyT _ =>
          match build_wrapped_list_array rows field_path keyT with
          | .ok c => .ok c
          | .error e => .err e
      | _ =>
          let extracted := rows.map fun row =>
            (field_lookup field_path row).getD .null
          build_nested_list_array field_path extracted fieldName elemT
  | .dictionary keyT valT =>
      match build_string_dictionary_array rows field_path keyT valT with
      | .ok c => .ok c
      | .error e => .err e
  | .structT fields =>
      match structRowsOf field_path rows with
      | .ok srs =>
          match build_struct_array (srs.map Prod.fst) field_path fields with
          | .ok children =>
              -- `ArrayDataBuilder::build()?` (reader.rs:726): child arrays
              -- shorter than the struct length fail validation as a
              -- catchable error.
              if children.all (fun c => rows.length ≤ c.length) then
                .ok (.structArr rows.length (srs.map Prod.snd) children)
              else .err (.invalidArgument "invalid ArrayData: struct child length")
          | .err e => .err e
          | .abort m => .abort m
      | .err e => .err e
      | .abort m => .abort m
  | _ => .err (.schemaError "type not supported")

/-- `build_nested_list_array` (reader.rs:392): computes the offset buffer and
outer validity bitmap over the rows, builds the flattened element array by
dispatch on the element type, and assembles the list column of length
`rows.length`.  The struct element arm's `ArrayDataBuilder::build().unwrap()`
(reader.rs:543) is an abort, unlike the catchable `?` of the struct field
arm. -/
def build_nested_list_array (parent_field_name : String) (rows : List AvroValue)
    (fieldName : String) (elemT : DataType) : Outcome Col :=
  assembleList rows (match elemT with
    | .null => Outcome.ok (Col.nullArr (nestedValidLen rows))
    | .boolean => .ok (buildNestedBool rows (nestedValidLen rows))
    | .int8 => readPrimitiveListValues .int8 rows
    | .int16 => readPrimitiveListValues .int16 rows
    | .int32 => readPrimitiveListValues .int32 rows
    | .int64 => readPrimitiveListValues .int64 rows
    | .uint8 => readPrimitiveListValues .uint8 rows
    | .uint16 => readPrimitiveListValues .uint16 rows
    | .uint32 => readPrimitiveListValues .uint32 rows
    | .uint64 => readPrimitiveListValues .uint64 rows
    | .float16 => .err (.schemaError "Float16 not supported")
    | .float32 => readPrimitiveListValues .float32 rows
    | .float64 => readPrimitiveListValues .float64 rows
    | .timestamp _ => .err (.schemaError "Temporal types are not yet supported, see ARROW-4803")
    | .date32 => .err (.schemaError "Temporal types are not yet supported, see ARROW-4803")
    | .date64 => .err (.schemaError "Temporal types are not yet supported, see ARROW-4803")
    | .time32 _ => .err (.schemaError "Temporal types are not yet supported, see ARROW-4803")
    | .time64 _ => .err (.schemaError "Temporal types are not yet supported, see ARROW-4803")
    | .utf8 => .ok (.stringArr (flatten_string_values rows))
    | .largeUtf8 => .ok (.stringArr (flatten_string_values rows))
    | .list fn' et' =>
        build_nested_list_array parent_field_name (flatten_values rows) fn' et'
    | .largeList fn' et' =>
        build_nested_list_array parent_field_name (flatten_values rows) fn' et'
    | .structT fields =>
        match structElemSlots rows with
        | .ok slots =>
            match build_struct_array (slots.map Prod.fst)
                (parent_field_name ++ "." ++ fieldName) fields with
            | .ok children =>
                if children.all (fun c => slots.length ≤ c.length) then
                  .ok (.structArr slots.length (slots.map Prod.snd) children)
                else .abort "invalid ArrayData: struct child length"
            | .err e => .err e
            | .abort m => .abort m
        | .err e => .err e
        | .abort m => .abort m
    | _ => .err (.schemaError "Nested list type not supported"))
end

example :
    build_struct_array [[("a", .int 5)], [], [("a", .null)]] ""
      (.cons "a" .int32 .nil) =
    .ok [.primitive .int32 [none, none, none]] := rfl

/-- `arrow::record_batch::RecordBatch`: the target schema plus one column per
field. -/
structure Batch where
  schema : StructFields
  columns : List Col
  deriving Repr

/-- `RecordBatch::try_new` validation: at least one column, one column per
schema field, and all columns of equal length (data-type conformance holds by
construction and is not re-checked). -/
def recordBatch_try_new (schema : StructFields) (columns : List Col) :
    Except ArrowErr Batch :=
  match columns with
  | [] => .error (.invalidArgument "must have at least one column")
  | c0 :: rest =>
      if schema.length ≠ columns.length then
        .error (.invalidArgument "number of columns must match number of fields")
      else if rest.all (fun c => c.length = c0.length) then .ok ⟨schema, columns⟩
      else .error (.invalidArgument "all columns must have the same length")

/-- `AvroDecoder` (reader.rs:38).  The `schema_registry` and `schema_resolver`
fields are handles to external collaborators (schema registry service); no
claim touches them and they are not modelled. -/
structure AvroDecoder where
  buffer : List (Nat × AvroValue)
  lookup : List (Nat × List (String × Nat))
  schema : StructFields
  deriving Repr

/-- `AvroDecoder::append_value` (reader.rs:107): push one (schema-id, value)
pair onto the decode buffer. -/
def append_value (d : AvroDecoder) (value : Nat × AvroValue) : AvroDecoder :=
  { d with buffer := d.buffer ++ [value] }

/-- `AvroDecoder::flush` (reader.rs:111): unconditionally `Ok(None)`, no state
change. -/
def flush (d : AvroDecoder) : Except ArrowErr (Option Batch) × AvroDecoder :=
  (.ok none, d)

/-- The row extraction of `next_batch` (reader.rs:120-134): every buffered
value must be a record; any other value PANICS (`Row needs to be of type
object`) — the error-returning variant is commented out in the source. -/
def rowsOf (buffer : List (Nat × AvroValue)) : Outcome (List Row) :=
  omapM (fun entry =>
    match entry.2 with
    | .record v => .ok v
    | _ => .abort "Row needs to be of type object") buffer

/-- `AvroDecoder::next_batch` (reader.rs:118): decodes ALL buffered rows
(`_batch_size` is ignored) against the target schema and always wraps the
result in `Some(..)`.  The decoder state is returned unchanged: the source
takes `&mut self` but never mutates — in particular the buffer is NOT drained.
The source's `Option<ArrowResult<..>>` is flattened into `Outcome`:
`Some(Ok(batch))` is `.ok (some batch)`, `Some(Err(e))` is `.err e`, and a
panic is `.abort`; `None` is never returned. -/
def next_batch (d : AvroDecoder) (_batch_size : Nat) :
    Outcome (Option Batch) × AvroDecoder :=
  (match rowsOf d.buffer with
   | .ok rows =>
       match build_struct_array rows "" d.schema with
       | .ok arr =>
           match recordBatch_try_new d.schema arr with
           | .ok b => .ok (some b)
           | .error e => .err e
       | .err e => .err e
       | .abort m => .abort m
   | .err e => .err e
   | .abort m => .abort m,
   d)

mutual
/-- `apache_avro::schema::Schema`, restricted to what `child_schema_lookup`
dispatches on; all schemata it ignores (primitives, enums, fixed, maps, ...)
are collapsed into `prim`.  A record carries both its ordered field list and
its name→position `lookup` map, exactly like `RecordSchema`.  Union branches
and record fields are dedicated list types so the lookup functions are
structurally recursive. -/
inductive AvroSchema where
  | null
  | prim (desc : String)
  | record (fields : AvroFields) (lookup : List (String × Nat))
  | array (elem : AvroSchema)
  | union (branches : SchemaList)
  deriving Repr

/-- Ordered record fields `(name, schema)`. -/
inductive AvroFields where
  | nil
  | cons (name : String) (schema : AvroSchema) (rest : AvroFields)
  deriving Repr

/-- Union branches. -/
inductive SchemaList where
  | nil
  | cons (s : AvroSchema) (rest : SchemaList)
  deriving Repr
end

/-- Is this branch the null schema? -/
def AvroSchema.isNull : AvroSchema → Bool
  | .null => true
  | _ => false

/-- Number of union branches (`variants().len()`). -/
def SchemaList.length : SchemaList → Nat
  | .nil => 0
  | .cons _ rest => 1 + rest.length

/-- Does the union have a null branch?  Models
`find_schema_with_known_schemata::<..>(&Value::Null, ..).is_some()`. -/
def SchemaList.anyNull : SchemaList → Bool
  | .nil => false
  | .cons s rest => s.isNull || rest.anyNull

/-- `BTreeMap::insert` on a path→position map: replace the binding if the key
is present, otherwise add it. -/
def insertPath (m : List (String × Nat)) (k : String) (v : Nat) :
    List (String × Nat) :=
  if m.any (fun p => p.1 = k) then
    m.map (fun p => if p.1 = k then (k, v) else p)
  else m ++ [(k, v)]

mutual
/-- `child_schema_lookup` (reader.rs:64).  Union arm: only a two-branch union
with a null branch is unwrapped, recursing into the first non-null branch
under the SAME path; every other union inserts nothing.  Record arm: insert
`parent.field → position` for every entry of the record's own lookup map, then
recurse into each field under the extended path.  Array arm: recurse into the
element type under `parent.element`.  Everything else inserts nothing.  (The
source's `DFResult` error path is unreachable — no arm produces an error — so
the embedding returns the map directly.) -/
def child_schema_lookup (parent_field_name : String) (s : AvroSchema)
    (m : List (String × Nat)) : List (String × Nat) :=
  match s with
  | .union us =>
      match us with
      | .cons a (.cons b .nil) =>
          if a.isNull || b.isNull then
            if !a.isNull then child_schema_lookup parent_field_name a m
            else if !b.isNull then child_schema_lookup parent_field_name b m
            else m
          else m
      | _ => m
  | .record fields lk =>
      let m' := lk.foldl
        (fun acc p => insertPath acc (parent_field_name ++ "." ++ p.1) p.2) m
      child_fields_lookup parent_field_name fields m'
  | .array elem =>
      child_schema_lookup (parent_field_name ++ ".element") elem m
  | _ => m

/-- The field loop of the record arm of `child_schema_lookup`. -/
def child_fields_lookup (parent_field_name : String) (fs : AvroFields)
    (m : List (String × Nat)) : List (String × Nat) :=
  match fs with
  | .nil => m
  | .cons name s rest =>
      child_fields_lookup parent_field_name rest
        (child_schema_lookup (parent_field_name ++ "." ++ name) s m)
end

/-- The top-level field loop of `schema_lookup` (parent path is just the field
name). -/
def schema_fields_lookup (fs : AvroFields) (m : List (String × Nat)) :
    List (String × Nat) :=
  match fs with
  | .nil => m
  | .cons name s rest =>
      schema_fields_lookup rest (child_schema_lookup name s m)

/-- `schema_lookup` (reader.rs:47): the writer schema must be a record; its
own lookup map is the seed, extended by recursing into every field. -/
def schema_lookup (schema : AvroSchema) : Except ArrowErr (List (String × Nat)) :=
  match schema with
  | .record fields lk => .ok (schema_fields_lookup fields lk)
  | _ => .error (.schemaError "expected avro schema to be a record")

/-- Is the value one of the kinds `resolve_bytes` can produce bytes from
(a byte sequence, a string, an array, or a union wrapper)? -/
def isBytesSource : AvroValue → Bool
  | .bytes _ => true
  | .string _ => true
  | .array _ => true
  | .union _ _ => true
  | _ => false

/-- Is the value a union wrapper? -/
def AvroValue.isUnion : AvroValue → Bool
  | .union _ _ => true
  | _ => false

/-! ## Helper lemmas -/

theorem omapM_ok_length {α β : Type} (f : α → Outcome β) :
    ∀ (l : List α) (ys : List β), omapM f l = .ok ys → ys.length = l.length := by
  intro l
  induction l with
  | nil => intro ys h; simp [omapM] at h; simp [← h]
  | cons a as ih =>
      intro ys h
      simp only [omapM] at h
      cases hfa : f a with
      | ok b =>
          rw [hfa] at h
          cases hrest : omapM f as with
          | ok bs =>
              rw [hrest] at h
              simp only [Outcome.ok.injEq] at h
              subst h
              simp [ih bs hrest]
          | err e => rw [hrest] at h; exact absurd h (by simp)
          | abort m => rw [hrest] at h; exact absurd h (by simp)
      | err e => rw [hfa] at h; exact absurd h (by simp)
      | abort m => rw [hfa] at h; exact absurd h (by simp)

theorem emapM_ok_length {ε α β : Type} (f : α → Except ε β) :
    ∀ (l : List α) (ys : List β), emapM f l = .ok ys → ys.length = l.length := by
  intro l
  induction l with
  | nil => intro ys h; simp [emapM] at h; simp [← h]
  | cons a as ih =>
      intro ys h
      simp only [emapM] at h
      cases hfa : f a with
      | ok b =>
          rw [hfa] at h
          cases hrest : emapM f as with
          | ok bs =>
              rw [hrest] at h
              simp only [Except.ok.injEq] at h
              subst h
              simp [ih bs hrest]
          | error e => rw [hrest] at h; exact absurd h (by simp)
      | error e => rw [hfa] at h; exact absurd h (by simp)

theorem emapM_ok_forall {ε α β : Type} (f : α → Except ε β) :
    ∀ (l : List α) (ys : List β), emapM f l = .ok ys →
      ∀ a, a ∈ l → ∃ b, f a = .ok b := by
  intro l
  induction l with
  | nil => intro ys _ a ha; exact absurd ha (by simp)
  | cons x xs ih =>
      intro ys h a ha
      simp only [emapM] at h
      cases hfa : f x with
      | ok b =>
          rw [hfa] at h
          cases hrest : emapM f xs with
          | ok bs =>
              rcases List.mem_cons.mp ha with rfl | hmem
              · exact ⟨b, hfa⟩
              · exact ih bs hrest a hmem
          | error e => rw [hrest] at h; exact absurd h (by simp)
      | error e => rw [hfa] at h; exact absurd h (by simp)

/-- With the stubbed `field_lookup`, the dictionary row loop appends one null
key per row and never interns a value. -/
theorem dictLoop_stub (cap : Nat) (col_name : String) :
    ∀ (rows : List Row) (values : List String) (keys : List (Option Nat)),
      dictLoop cap col_name rows values keys =
        .ok (values, keys ++ rows.map (fun _ => none)) := by
  intro rows
  induction rows with
  | nil => intro values keys; simp [dictLoop]
  | cons r rest ih =>
      intro values keys
      simp [dictLoop, field_lookup, ih]

theorem build_primitive_array_ok_length (t : ArrowPrim) (rows : List Row)
    (col_name : String) (c : Col) (h : build_primitive_array t rows col_name = .ok c) :
    c.length = rows.length := by
  simp only [build_primitive_array] at h
  cases hm : omapM (fun row =>
      match field_lookup col_name row with
      | none => Outcome.ok none
      | some value => resolve_item t value) rows with
  | ok vals =>
      rw [hm] at h
      simp only [Outcome.ok.injEq] at h
      subst h
      simpa [Col.length] using omapM_ok_length _ rows vals hm
  | err e => rw [hm] at h; exact absurd h (by simp)
  | abort m => rw [hm] at h; exact absurd h (by simp)

theorem build_string_column_ok_length (rows : List Row) (col_name : String)
    (c : Col) (h : build_string_column rows col_name = .ok c) :
    c.length = rows.length := by
  simp only [build_string_column] at h
  cases hm : emapM (fun row =>
      match field_lookup col_name row with
      | none => Except.ok none
      | some v => resolve_string v) rows with
  | ok vals =>
      rw [hm] at h
      simp only [Except.ok.injEq] at h
      subst h
      simpa [Col.length] using emapM_ok_length _ rows vals hm
  | error e => rw [hm] at h; exact absurd h (by simp)

theorem build_fixed_column_ok_length (rows : List Row) (col_name : String)
    (size : Int) (c : Col) (h : build_fixed_column rows col_name size = .ok c) :
    c.length = rows.length := by
  simp only [build_fixed_column] at h
  split at h
  · simp only [Except.ok.injEq] at h
    subst h
    simp [Col.length]
  · exact absurd h (by simp)

theorem build_dictionary_array_stub (keyT : ArrowPrim) (rows : List Row)
    (col_name : String) :
    build_dictionary_array keyT rows col_name =
      .ok (.dict keyT (rows.map (fun _ => none)) []) := by
  simp [build_dictionary_array, dictLoop_stub]

theorem build_string_dictionary_array_ok_length (rows : List Row)
    (col_name : String) (kT vT : DataType) (c : Col)
    (h : build_string_dictionary_array rows col_name kT vT = .ok c) :
    c.length = rows.length := by
  simp only [build_string_dictionary_array] at h
  split at h
  · split at h <;>
      first
      | (rw [build_dictionary_array_stub] at h
         simp only [Except.ok.injEq] at h
         subst h
         simp [Col.length])
      | exact absurd h (by simp)
  · exact absurd h (by simp)

theorem listOffsetsLoop_fst_length :
    ∀ (rows : List AvroValue) (cur : Nat),
      (listOffsetsLoop rows cur).1.length = rows.length := by
  intro rows
  induction rows with
  | nil => intro cur; simp [listOffsetsLoop]
  | cons v rest ih => intro cur; simp [listOffsetsLoop, ih]

theorem listOffsetsLoop_snd :
    ∀ (rows : List AvroValue) (cur : Nat),
      (listOffsetsLoop rows cur).2 = rows.map listRowBit := by
  intro rows
  induction rows with
  | nil => intro cur; simp [listOffsetsLoop]
  | cons v rest ih => intro cur; simp [listOffsetsLoop, ih]

theorem listOffsetsLoop_getD :
    ∀ (rows : List AvroValue) (cur : Nat) (i : Nat), i < rows.length →
      (cur :: (listOffsetsLoop rows cur).1).getD (i + 1) 0 =
        (cur :: (listOffsetsLoop rows cur).1).getD i 0 +
          listRowContrib (rows.getD i .null) := by
  intro rows
  induction rows with
  | nil => intro cur i hi; exact absurd hi (by simp)
  | cons v rest ih =>
      intro cur i hi
      cases i with
      | zero => simp [listOffsetsLoop]
      | succ j =>
          have hj : j < rest.length := by simpa using hi
          have := ih (cur + listRowContrib v) j hj
          simpa [listOffsetsLoop] using this

theorem nestedOffsets_length (rows : List AvroValue) :
    (nestedOffsets rows).length = rows.length + 1 := by
  simp [nestedOffsets, listOffsetsLoop_fst_length]

theorem nestedOffsets_getD (rows : List AvroValue) (i : Nat) (hi : i < rows.length) :
    (nestedOffsets rows).getD (i + 1) 0 =
      (nestedOffsets rows).getD i 0 + listRowContrib (rows.getD i .null) :=
  listOffsetsLoop_getD rows 0 i hi

theorem nestedBits_eq (rows : List AvroValue) :
    nestedBits rows = rows.map listRowBit := by
  simp [nestedBits, listOffsetsLoop_snd]

/-- Whatever the element type, a successful `build_nested_list_array` produces
a list column of length `rows.length` with the computed offsets and bits. -/
theorem assembleList_ok {rows : List AvroValue} {x : Outcome Col} {c : Col}
    (h : assembleList rows x = .ok c) :
    ∃ child, x = .ok child ∧
      c = .list rows.length (nestedOffsets rows) (nestedBits rows) child := by
  cases x with
  | ok child =>
      simp only [assembleList, Outcome.ok.injEq] at h
      exact ⟨child, rfl, h.symm⟩
  | err e => exact absurd h (by simp [assembleList])
  | abort m => exact absurd h (by simp [assembleList])

theorem build_nested_list_array_ok_shape (parent : String) (rows : List AvroValue)
    (fieldName : String) (elemT : DataType) (c : Col)
    (h : build_nested_list_array parent rows fieldName elemT = .ok c) :
    ∃ child, c = .list rows.length (nestedOffsets rows) (nestedBits rows) child := by
  rw [build_nested_list_array.eq_def] at h
  obtain ⟨child, -, hc⟩ := assembleList_ok h
  exact ⟨child, hc⟩

/-- Every successfully built column of a non-dictionary-list field has exactly
one entry per input row. -/
theorem build_field_ok_length :
    ∀ (dt : DataType) (rows : List Row) (field_path : String) (c : Col),
      isDictList dt = false →
      build_field rows field_path dt = .ok c →
      c.length = rows.length := by
  intro dt rows field_path c hd h
  cases dt <;> simp only [build_field] at h
  case null =>
      simp only [Outcome.ok.injEq] at h
      subst h; simp [Col.length]
  case boolean =>
      simp only [Outcome.ok.injEq] at h
      subst h; simp [build_boolean_array, Col.length]
  case float64 => exact build_primitive_array_ok_length _ _ _ _ h
  case float32 => exact build_primitive_array_ok_length _ _ _ _ h
  case int64 => exact build_primitive_array_ok_length _ _ _ _ h
  case int32 => exact build_primitive_array_ok_length _ _ _ _ h
  case int16 => exact build_primitive_array_ok_length _ _ _ _ h
  case int8 => exact build_primitive_array_ok_length _ _ _ _ h
  case uint64 => exact build_primitive_array_ok_length _ _ _ _ h
  case uint32 => exact build_primitive_array_ok_length _ _ _ _ h
  case uint16 => exact build_primitive_array_ok_length _ _ _ _ h
  case uint8 => exact build_primitive_array_ok_length _ _ _ _ h
  case timestamp u =>
      cases u <;> exact build_primitive_array_ok_length _ _ _ _ h
  case date64 => exact build_primitive_array_ok_length _ _ _ _ h
  case date32 => exact build_primitive_array_ok_length _ _ _ _ h
  case time64 u =>
      cases u with
      | microsecond => exact build_primitive_array_ok_length _ _ _ _ h
      | nanosecond => exact build_primitive_array_ok_length _ _ _ _ h
      | second => exact absurd h (by simp)
      | millisecond => exact absurd h (by simp)
  case time32 u =>
      cases u with
      | second => exact build_primitive_array_ok_length _ _ _ _ h
      | millisecond => exact build_primitive_array_ok_length _ _ _ _ h
      | microsecond => exact absurd h (by simp)
      | nanosecond => exact absurd h (by simp)
  case utf8 =>
      split at h
      · next heq =>
          simp only [Outcome.ok.injEq] at h
          subst h
          exact build_string_column_ok_length _ _ _ heq
      · exact absurd h (by simp)
  case largeUtf8 =>
      split at h
      · next heq =>
          simp only [Outcome.ok.injEq] at h
          subst h
          exact build_string_column_ok_length _ _ _ heq
      · exact absurd h (by simp)
  case binary =>
      simp only [Outcome.ok.injEq] at h
      subst h; simp [build_binary_column, Col.length]
  case largeBinary =>
      simp only [Outcome.ok.injEq] at h
      subst h; simp [build_binary_column, Col.length]
  case fixedSizeBinary size =>
      split at h
      · next heq =>
          simp only [Outcome.ok.injEq] at h
          subst h
          exact build_fixed_column_ok_length _ _ _ _ heq
      · exact absurd h (by simp)
  case list fieldName elemT =>
      split at h
      · next => simp [isDictList] at hd
      · obtain ⟨child, hc⟩ := build_nested_list_array_ok_shape _ _ _ _ _ h
        subst hc
        simp [Col.length]
  case largeList fieldName elemT => exact absurd h (by simp)
  case float16 => exact absurd h (by simp)
  case dictionary keyT valT =>
      split at h
      · next heq =>
          simp only [Outcome.ok.injEq] at h
          subst h
          exact build_string_dictionary_array_ok_length _ _ _ _ _ heq
      · exact absurd h (by simp)
  case structT fields =>
      split at h
      · split at h
        · split at h
          · simp only [Outcome.ok.injEq] at h
            subst h; simp [Col.length]
          · exact absurd h (by simp)
        · exact absurd h (by simp)
        · exact absurd h (by simp)
      · exact absurd h (by simp)
      · exact absurd h (by simp)
  case other desc => exact absurd h (by simp)

/-- Structural induction on a field list alone (the generated recursor of the
mutual `DataType`/`StructFields` family has multiple motives, which the
`induction` tactic does not accept). -/
theorem StructFields.inductionOn {motive : StructFields → Prop}
    (hnil : motive .nil)
    (hcons : ∀ name dt rest, motive rest → motive (.cons name dt rest)) :
    ∀ fs, motive fs
  | .nil => hnil
  | .cons n dt rest => hcons n dt rest (StructFields.inductionOn hnil hcons rest)

/-! ## Claim theorems -/

/-- C1 (counterexample).  The claim "each column array produced by a decode
pass has length equal to the number of buffered input rows" fails for a
list-of-dictionary column: for the one-field schema
`x : List(Dictionary(Int8, Utf8))` and a single buffered row, the wrapped list
builder skips the row (its field lookup misses, and missed rows append
nothing), producing a column of length 0 for 1 input row. -/
theorem c1_counterexample :
    build_struct_array [[]] ""
        (.cons "x" (.list "element" (.dictionary .int8 .utf8)) .nil) =
      .ok [.list 0 [0] [] (.dict .int8 [] [])] ∧
    Col.length (.list 0 [0] [] (.dict .int8 [] [])) = 0 ∧
    ([([] : Row)]).length = 1 :=
  ⟨rfl, rfl, rfl⟩

/-- C1 (amended).  Every column of a successful `build_struct_array` pass over
a field whose declared type is NOT a list of dictionary-encoded values has
length equal to the input row count; list-of-dictionary columns instead carry
one entry per row whose field lookup succeeded (rows with a missing field are
skipped entirely). -/
theorem c1_amended_theorem :
    ∀ (fields : StructFields) (rows : List Row) (parent : String) (cols : List Col),
      build_struct_array rows parent fields = .ok cols →
      cols.length = fields.length ∧
      ∀ i, i < cols.length →
        isDictList (fields.typeAtD i .null) = false →
        (cols.getD i (.nullArr 0)).length = rows.length := by
  intro fields
  induction fields using StructFields.inductionOn with
  | hnil =>
      intro rows parent cols h
      simp only [build_struct_array, Outcome.ok.injEq] at h
      subst h
      exact ⟨rfl, fun i hi _ => absurd hi (by simp)⟩
  | hcons name dt rest ih =>
      intro rows parent cols h
      simp only [build_struct_array] at h
      split at h
      · next c hc =>
          split at h
          · next cs hcs =>
              simp only [Outcome.ok.injEq] at h
              subst h
              have hrest := ih rows parent cs hcs
              refine ⟨by simp [StructFields.length, hrest.1]; omega, ?_⟩
              intro i hi hd
              cases i with
              | zero =>
                  simp only [StructFields.typeAtD] at hd
                  simpa using build_field_ok_length dt rows _ c hd hc
              | succ j =>
                  simp only [StructFields.typeAtD] at hd
                  have hj : j < cs.length := by simpa using hi
                  simpa using hrest.2 j hj hd
          · exact absurd h (by simp)
          · exact absurd h (by simp)
      · exact absurd h (by simp)
      · exact absurd h (by simp)

/-- C1 (witness for the amended theorem): a two-row decode over the schema
`a : Int32` yields a first column of length 2. -/
theorem c1_amended_witness :
    (([Col.primitive .int32 [none, none]]).getD 0 (.nullArr 0)).length = 2 := by
  have h := c1_amended_theorem (.cons "a" .int32 .nil)
    [[("a", .int 5)], []] "" [.primitive .int32 [none, none]] rfl
  exact h.2 0 (by decide) (by decide)

/-- C2 (code evaluated at the failing input).  A buffered non-record value
makes `next_batch` ABORT the process (`panic!("Row needs to be of type
object, ..")`, reader.rs:132) instead of returning a catchable error value:
the claim is contradicted by the active code, while the commented-out code at
reader.rs:124-130 implements exactly the claimed `Err(..)` behaviour.  (The
second claimed site, a non-record value where a struct field is expected,
likewise panics at reader.rs:714 — `structRowsOf` in this embedding — but is
unreachable while `field_lookup` is stubbed to `None`.) -/
theorem c2_failing_theorem :
    next_batch ⟨[(0, .int 1)], [], .cons "a" .int32 .nil⟩ 16 =
      (.abort "Row needs to be of type object",
       ⟨[(0, .int 1)], [], .cons "a" .int32 .nil⟩) :=
  rfl

/-- C3 (code evaluated at the failing input).  For the target schema
`{a : Int32}` and buffered rows `[{a:5}, {}, {a:null}]` the decode pass
produces column `a = [null, null, null]`, not `[5, null, null]`: the stubbed
`field_lookup` (reader.rs:768, TODO with the real lookup commented out) misses
every field, so the present value 5 is never resolved. -/
theorem c3_failing_theorem :
    (next_batch ⟨[(0, .record [("a", .int 5)]), (1, .record []),
        (2, .record [("a", .null)])], [], .cons "a" .int32 .nil⟩ 16).1 =
      .ok (some ⟨.cons "a" .int32 .nil, [.primitive .int32 [none, none, none]]⟩) :=
  rfl

/-- C4 (counterexample).  A scalar row under a list-typed column contributes
exactly one element to the offsets, but its validity bit is left UNSET
(`bits = [false]`): the claim's "marked present (validity bit set)" fails.
Only the array branch of the offset walk (reader.rs:410) sets the bit; the
scalar branch (reader.rs:414) advances the offset without setting it. -/
theorem c4_counterexample :
    build_nested_list_array "tags" [.string "z"] "element" .utf8 =
      .ok (.list 1 [0, 1] [false] (.stringArr [some "z"])) ∧
    listRowContrib (.string "z") = 1 ∧
    listRowBit (.string "z") = false :=
  ⟨rfl, rfl, rfl⟩

/-- C4 (amended).  For every list-typed column build that succeeds, the offset
buffer has row-count + 1 entries starting at 0 and, walking rows in order
after unwrapping one union level, an array-valued row adds its length and has
its validity bit set; a null row adds zero with its bit unset; and any other
scalar row adds exactly one — but, contrary to the original claim, its
validity bit is LEFT UNSET (`listRowBit` is true only for array rows). -/
theorem c4_amended_theorem :
    ∀ (parent : String) (rows : List AvroValue) (fieldName : String)
      (elemT : DataType) (c : Col),
      build_nested_list_array parent rows fieldName elemT = .ok c →
      c.offsetsOf.length = rows.length + 1 ∧
      c.offsetsOf.getD 0 0 = 0 ∧
      c.bitsOf = rows.map listRowBit ∧
      (∀ i, i < rows.length →
        c.offsetsOf.getD (i + 1) 0 =
          c.offsetsOf.getD i 0 + listRowContrib (rows.getD i .null)) ∧
      Col.length c = rows.length := by
  intro parent rows fieldName elemT c h
  obtain ⟨child, hc⟩ := build_nested_list_array_ok_shape _ _ _ _ _ h
  subst hc
  refine ⟨?_, ?_, ?_, ?_, ?_⟩
  · simpa [Col.offsetsOf] using nestedOffsets_length rows
  · simp [Col.offsetsOf, nestedOffsets]
  · simpa [Col.bitsOf] using nestedBits_eq rows
  · intro i hi
    simpa [Col.offsetsOf] using nestedOffsets_getD rows i hi
  · simp [Col.length]

/-- C4 (witness): the amended theorem applied to the concrete rows
`[["x","y"], null, "z"]` with `Utf8` elements. -/
theorem c4_amended_witness :
    (Col.list 3 [0, 2, 2, 3] [true, false, false]
        (.stringArr [some "x", some "y", some "z"])).offsetsOf.length = 4 ∧
    (Col.list 3 [0, 2, 2, 3] [true, false, false]
        (.stringArr [some "x", some "y", some "z"])).bitsOf =
      [true, false, false] ∧
    (Col.list 3 [0, 2, 2, 3] [true, false, false]
        (.stringArr [some "x", some "y", some "z"])).offsetsOf.getD 3 0 =
      2 + 1 := by
  have h := c4_amended_theorem "tags"
    [.array [.string "x", .string "y"], .null, .string "z"] "element" .utf8
    (.list 3 [0, 2, 2, 3] [true, false, false]
      (.stringArr [some "x", some "y", some "z"])) rfl
  exact ⟨h.1, h.2.2.1, h.2.2.2.1 2 (by decide)⟩

/-- C5 (counterexample).  `next_batch` returns a batch, yet the decoded entry
is still in the buffer afterwards: the pass does not consume the buffer
(reader.rs:118-150 only iterates `self.buffer`, never draining it). -/
theorem c5_counterexample :
    (next_batch ⟨[(0, .record [("a", .int 5)])], [], .cons "a" .int32 .nil⟩ 16).1 =
      .ok (some ⟨.cons "a" .int32 .nil, [.primitive .int32 [none]]⟩) ∧
    (next_batch ⟨[(0, .record [("a", .int 5)])], [], .cons "a" .int32 .nil⟩ 16).2.buffer =
      [(0, .record [("a", .int 5)])] ∧
    [((0 : Nat), AvroValue.record [("a", .int 5)])] ≠ [] :=
  ⟨rfl, rfl, by simp⟩

/-- C5 (amended).  The decode buffer is append-only (`append_value` pushes one
entry), but a decode pass does NOT remove the decoded entries: `next_batch`
leaves the decoder state — in particular the buffer — unchanged, so a
subsequent pass re-decodes the same rows. -/
theorem c5_amended_theorem :
    ∀ (d : AvroDecoder) (n : Nat) (v : Nat × AvroValue),
      (next_batch d n).2 = d ∧
      (append_value d v).buffer = d.buffer ++ [v] :=
  fun _ _ _ => ⟨rfl, rfl⟩

/-- C6 (code evaluated over every input).  `build_dictionary_array` NEVER
returns `DictionaryKeyOverflow`: with `field_lookup` stubbed to `None`
(reader.rs:768) no string is ever resolved, so every row appends a null key
and the dictionary stays empty — the overflow check in the builder is dead
code and a batch with more distinct source strings than the key width can
address decodes to an all-null column instead of failing. -/
theorem c6_theorem :
    ∀ (keyT : ArrowPrim) (rows : List Row) (col_name : String),
      build_dictionary_array keyT rows col_name =
        .ok (.dict keyT (rows.map (fun _ => none)) []) :=
  fun keyT rows col_name => build_dictionary_array_stub keyT rows col_name

/-- C7.  Building the schema index over a union: a two-branch union with
exactly one null branch is recursed into through the non-null branch under the
same dotted path (transparent unwrap), while a union with more than two
branches, or with no null branch, inserts nothing (the map is returned
unchanged, so later lookups at that path fail to resolve). -/
theorem c7_theorem :
    (∀ (p : String) (a b : AvroSchema) (m : List (String × Nat)),
        a.isNull = true → b.isNull = false →
        child_schema_lookup p (.union (.cons a (.cons b .nil))) m =
          child_schema_lookup p b m) ∧
    (∀ (p : String) (a b : AvroSchema) (m : List (String × Nat)),
        a.isNull = false → b.isNull = true →
        child_schema_lookup p (.union (.cons a (.cons b .nil))) m =
          child_schema_lookup p a m) ∧
    (∀ (p : String) (us : SchemaList) (m : List (String × Nat)),
        2 < us.length ∨ us.anyNull = false →
        child_schema_lookup p (.union us) m = m) := by
  refine ⟨?_, ?_, ?_⟩
  · intro p a b m hA hB
    simp [child_schema_lookup, hA, hB]
  · intro p a b m hA hB
    simp [child_schema_lookup, hA, hB]
  · intro p us m hus
    cases us with
    | nil => simp [child_schema_lookup]
    | cons a rest =>
        cases rest with
        | nil => simp [child_schema_lookup]
        | cons b rest2 =>
            cases rest2 with
            | nil =>
                rcases hus with hlen | hnull
                · exact absurd hlen (by simp [SchemaList.length])
                · simp only [SchemaList.anyNull, Bool.or_eq_false_iff] at hnull
                  simp [child_schema_lookup, hnull.1, hnull.2.1]
            | cons c' rest3 => simp [child_schema_lookup]

/-- C7 (witness): a nullable `["null", record{c}]` union at path `a.b`
resolves through the record branch and indexes `a.b.c`; a three-branch union
at the same path inserts nothing. -/
theorem c7_witness :
    child_schema_lookup "a.b"
        (.union (.cons .null
          (.cons (.record (.cons "c" (.prim "int") .nil) [("c", 0)]) .nil))) [] =
      child_schema_lookup "a.b"
        (.record (.cons "c" (.prim "int") .nil) [("c", 0)]) [] ∧
    child_schema_lookup "a.b"
        (.union (.cons (.prim "int")
          (.cons (.prim "string") (.cons (.prim "boolean") .nil)))) [] = [] := by
  refine ⟨c7_theorem.1 "a.b" _ _ [] rfl rfl, ?_⟩
  exact c7_theorem.2.2 "a.b" _ [] (Or.inl (by simp [SchemaList.length]))

/-- C8 (counterexample).  An array element that does not fit in a single
unsigned byte makes `resolve_bytes` ABSENT (`none`), not an error: the
collected element failure is discarded by `.ok()?` (reader.rs:866) and the
function's return type `Option<Vec<u8>>` has no error channel at all.  The
claim's "is an error (not absent)" is false. -/
theorem c8_counterexample :
    resolve_bytes (.array [.int 300]) = none ∧
    resolve_bytes (.array [.int 104]) = some [104] :=
  ⟨rfl, rfl⟩

/-- C8 (amended).  The byte-sequence resolver returns the bytes of a byte
sequence directly, re-encodes a string as its UTF-8 bytes, and concatenates an
array of in-range elements; an element that does not fit in a single unsigned
byte makes the WHOLE value absent (not an error — the resolver has no error
channel); any other kind of value yields absent; a union is unwrapped one
level. -/
theorem c8_amended_theorem :
    (∀ bs, resolve_bytes (.bytes bs) = some bs) ∧
    (∀ s, resolve_bytes (.string s) = some (stringToBytes s)) ∧
    (∀ items bs, emapM resolve_u8 items = .ok bs →
        resolve_bytes (.array items) = some bs) ∧
    (∀ items (n : Int), AvroValue.int n ∈ items → ¬(0 ≤ n ∧ n ≤ 255) →
        resolve_bytes (.array items) = none) ∧
    (∀ n : Int, (resolve_u8 (.int n)).isOk = decide (0 ≤ n ∧ n ≤ 255)) ∧
    (∀ v, isBytesSource v = false → resolve_bytes v = none) ∧
    (∀ pos v, v.isUnion = false →
        resolve_bytes (.union pos v) = resolve_bytes v) := by
  refine ⟨fun bs => rfl, fun s => rfl, ?_, ?_, ?_, ?_, ?_⟩
  · intro items bs h
    simp [resolve_bytes, h]
  · intro items n hmem hrange
    cases hm : emapM resolve_u8 items with
    | ok bs =>
        obtain ⟨b, hb⟩ := emapM_ok_forall resolve_u8 items bs hm _ hmem
        rw [show resolve_u8 (.int n) = .error .getU8 from by
          simp [resolve_u8, hrange]] at hb
        exact absurd hb (by simp)
    | error e => simp [resolve_bytes, hm]
  · intro n
    by_cases hr : 0 ≤ n ∧ n ≤ 255 <;> simp [resolve_u8, hr, Except.isOk, Except.toBool]
  · intro v hv
    cases v <;> simp_all [isBytesSource, resolve_bytes]
  · intro pos v hv
    cases v <;> simp_all [AvroValue.isUnion, resolve_bytes]

/-- C8 (witness): the amended theorem instantiated at concrete inputs — an
in-range array concatenates, an out-of-range element is absent, 300 does not
resolve as a byte, and a boolean is absent. -/
theorem c8_amended_witness :
    resolve_bytes (.array [.int 104, .int 105]) = some [104, 105] ∧
    resolve_bytes (.array [.int 99, .int 300]) = none ∧
    (resolve_u8 (.int 300)).isOk = decide ((0 : Int) ≤ 300 ∧ (300 : Int) ≤ 255) ∧
    resolve_bytes (.boolean true) = none := by
  refine ⟨c8_amended_theorem.2.2.1 _ _ rfl, ?_, c8_amended_theorem.2.2.2.2.1 300, ?_⟩
  · exact c8_amended_theorem.2.2.2.1 [.int 99, .int 300] 300
      (List.Mem.tail _ (List.Mem.head _)) (by omega)
  · exact c8_amended_theorem.2.2.2.2.2.1 (.boolean true) rfl

/-- C9.  Decoding is idempotent: `next_batch` leaves the decoder state
unchanged (the source never mutates `self`), so a second pass over the same
buffered rows under the same writer schema produces an identical batch. -/
theorem c9_theorem :
    ∀ (d : AvroDecoder) (n : Nat),
      (next_batch d n).2 = d ∧
      (next_batch ((next_batch d n).2) n).1 = (next_batch d n).1 :=
  fun _ _ => ⟨rfl, rfl⟩

/-- C10.  `flush` always returns `Ok(None)` — it never produces a batch and
never fails — and leaves the whole decoder state (decode buffer, schema
lookup cache, target schema) unchanged. -/
theorem c10_theorem :
    ∀ d : AvroDecoder, flush d = (Except.ok none, d) :=
  fun _ => rfl
